import Mathlib

/-!
Shallow embedding of the veraison/ear attestation-result library (Go).

Go named integer types `TrustTier` and `TrustClaim` are `int8`; both are
modelled as plain `Int` (their int8 range is constrained by hypotheses where a
claim is about the int8 domain).  Go `(value, error)` pairs are modelled as
`α × Option String` (`none` = nil error).  Go nil-pointer panics are modelled
as `Option`-valued operations returning `none`.  Go `interface{}` inputs are
modelled by the inductive `GoValue` below.  Go maps that are iterated are
modelled as association lists in the textual order of the source (Go's
iteration order is unspecified; every property proved here is
order-independent).
-/

namespace Ear

/-- Go `TrustTierNone TrustTier = 0` (trusttier.go; `TrustTier` is `int8`). -/
def TrustTierNone : Int := 0

/-- Go `TrustTierAffirming TrustTier = 2`. -/
def TrustTierAffirming : Int := 2

/-- Go `TrustTierWarning TrustTier = 32`. -/
def TrustTierWarning : Int := 32

/-- Go `TrustTierContraindicated TrustTier = 96`. -/
def TrustTierContraindicated : Int := 96

/-- Go `NoClaim = TrustClaim(0)` (trustclaim.go). -/
def NoClaim : Int := 0

/-- trustclaim.go: `func (o TrustClaim) IsNone() bool` — none = [-1, 1].
(`TrustClaim` is `int8`, modelled as `Int`.) -/
def TrustClaim.IsNone (o : Int) : Prop := -1 ≤ o ∧ o ≤ 1

/-- trustclaim.go: `IsAffirming` — affirming = [-32, -2] U [2, 31]. -/
def TrustClaim.IsAffirming (o : Int) : Prop :=
  (-32 ≤ o ∧ o ≤ -2) ∨ (2 ≤ o ∧ o ≤ 31)

/-- trustclaim.go: `IsWarning` — warning = [-96, -33] U [32, 95]. -/
def TrustClaim.IsWarning (o : Int) : Prop :=
  (-96 ≤ o ∧ o ≤ -33) ∨ (32 ≤ o ∧ o ≤ 95)

/-- trustclaim.go: `IsContraindicated` — contraindicated = [-128, -97] U
[96, 127] (the source tests `o <= -97 || o >= 96` since `o` is int8). -/
def TrustClaim.IsContraindicated (o : Int) : Prop :=
  o ≤ -97 ∨ 96 ≤ o

instance (o : Int) : Decidable (TrustClaim.IsNone o) :=
  inferInstanceAs (Decidable (_ ∧ _))

instance (o : Int) : Decidable (TrustClaim.IsAffirming o) :=
  inferInstanceAs (Decidable (_ ∨ _))

instance (o : Int) : Decidable (TrustClaim.IsWarning o) :=
  inferInstanceAs (Decidable (_ ∨ _))

instance (o : Int) : Decidable (TrustClaim.IsContraindicated o) :=
  inferInstanceAs (Decidable (_ ∨ _))

/-- trustclaim.go: `func (o TrustClaim) GetTier() TrustTier`.  The final
`panic(o)` branch is modelled as `none`. -/
def TrustClaim.GetTier (o : Int) : Option Int :=
  if TrustClaim.IsNone o then some TrustTierNone
  else if TrustClaim.IsAffirming o then some TrustTierAffirming
  else if TrustClaim.IsWarning o then some TrustTierWarning
  else if TrustClaim.IsContraindicated o then some TrustTierContraindicated
  else none

/-- Total companion of `TrustClaim.GetTier` (the classification never reaches
the panic branch; see `getTier_eq_some_tierOf`). -/
def tierOf (o : Int) : Int :=
  if TrustClaim.IsNone o then TrustTierNone
  else if TrustClaim.IsAffirming o then TrustTierAffirming
  else if TrustClaim.IsWarning o then TrustTierWarning
  else TrustTierContraindicated

/-- Go `interface{}` values as they reach `ToTrustClaim` / `ToTrustTier` /
the field parsers.  `vInt` stands for Go's `int`, `int8`, `int16`, `int32`
and `int64` (all handled identically by the sources); `vUInt` stands for
`uint`, `uint8`, `uint16`, `uint32` and `uint64` (the `> math.MaxInt64`
guard in the sources is vacuous for the narrow widths).  `vFloat` is a
`float64`, carried as the exact rational it denotes (every finite IEEE
double is a rational).  `vBytes` is a `[]byte` holding the UTF-8 bytes of
the carried string.  `vMap` is a `map[string]interface{}` (its payload is
irrelevant to the claims proved here). -/
inductive GoValue where
  | vTrustClaim (c : Int)
  | vTrustClaimPtr (c : Int)
  | vTrustTier (t : Int)
  | vTrustTierPtr (t : Int)
  | vJsonNumber (s : String)
  | vString (s : String)
  | vBytes (s : String)
  | vInt (i : Int)
  | vUInt (n : Nat)
  | vFloat (q : ℚ)
  | vBool (b : Bool)
  | vNull
  | vMap
  deriving DecidableEq

/-- `math.MaxInt64`. -/
def maxInt64 : Int := 9223372036854775807

def parseDigitsAux : List Char → Nat → Option Nat
  | [], acc => some acc
  | c :: cs, acc =>
    if c.isDigit then parseDigitsAux cs (acc * 10 + (c.toNat - 48)) else none

/-- All-decimal-digit parse of a non-empty character list. -/
def parseDigits (cs : List Char) : Option Nat :=
  if cs.isEmpty then none else parseDigitsAux cs 0

/-- `strconv.Atoi` / `strconv.ParseInt(s, 10, 64)`: optional sign, decimal
digits, 64-bit signed range. -/
def atoi (s : String) : Option Int :=
  match s.data with
  | '+' :: rest =>
    (parseDigits rest).bind fun n =>
      if maxInt64 < (n : Int) then none else some (n : Int)
  | '-' :: rest =>
    (parseDigits rest).bind fun n =>
      if maxInt64 + 1 < (n : Int) then none else some (-(n : Int))
  | cs =>
    (parseDigits cs).bind fun n =>
      if maxInt64 < (n : Int) then none else some (n : Int)

/-- Go's `int64(f)` conversion of a `float64`: truncation toward zero
(floor for non-negative values, ceiling — written as `-(-q).floor` — for
negative ones). -/
def ratTrunc (q : ℚ) : Int := if q < 0 then -((-q).floor) else q.floor

def natPad6 (n : Nat) : String :=
  let s := toString n
  String.mk (List.replicate (6 - s.length) '0') ++ s

/-- `fmt`'s `%f` rendering of a `float64`: six fractional digits, i.e.
`|q| * 10^6` rounded (half-up here, computed exactly on the reduced
numerator/denominator as `⌊(2·|num|·10^6 + den) / (2·den)⌋`; every concrete
value this development evaluates it on is exact at six digits). -/
def goFormatFloat6 (q : ℚ) : String :=
  let n : Int := if q < 0 then -q.num else q.num
  let scaled : Int := (2 * n * 1000000 + (q.den : Int)) / (2 * (q.den : Int))
  let ip := scaled / 1000000
  let fp := (scaled % 1000000).toNat
  (if q < 0 then "-" else "") ++ toString ip ++ "." ++ natPad6 fp

/-- The (claim value, tag) pairs of trustclaim.go's `noneDetails` map (the
`"unexected_evidence"` typo is the source's). -/
def noneDetails : List (Int × String) :=
  [(-1, "verifier_malfunction"), (0, "no_claim"), (1, "unexected_evidence")]

def instanceIdentityDetails : List (Int × String) :=
  [(2, "recognized_instance"), (96, "untrustworthy_instance"),
    (97, "unrecognized_instance"), (99, "crypto_failed")]

def configurationDetails : List (Int × String) :=
  [(2, "approved_config"), (3, "safe_config"), (32, "unsafe_config"),
    (96, "unsupportable_config"), (99, "crypto_failed")]

def executablesDetails : List (Int × String) :=
  [(2, "approved_rt"), (3, "approved_boot"), (32, "unsafe_rt"),
    (33, "unrecognized_rt"), (96, "contraindicated_rt"), (99, "crypto_failed")]

def fileSystemDetails : List (Int × String) :=
  [(2, "approved_fs"), (32, "unrecognized_fs"), (96, "contraindicated_fs"),
    (99, "crypto_failed")]

def hardwareDetails : List (Int × String) :=
  [(2, "genuine_hw"), (32, "unsafe_hw"), (96, "contraindicated_hw"),
    (97, "unrecognized_hw"), (99, "crypto_failed")]

def runtimeOpaqueDetails : List (Int × String) :=
  [(2, "encrypted_rt"), (32, "isolated_rt"), (96, "visible_rt"),
    (99, "crypto_failed")]

def storageOpaqueDetails : List (Int × String) :=
  [(2, "hw_encrypted_secrets"), (32, "sw_encrypted_secrets"),
    (96, "unencrypted_secrets"), (99, "crypto_failed")]

def sourcedDataDetails : List (Int × String) :=
  [(2, "trusted_sources"), (32, "untrusted_sources"),
    (96, "contraindicated_sources"), (99, "crypto_failed")]

/-- The `detailsMaps` slice searched by `getTrustClaimFromString`, in source
order. -/
def detailsMaps : List (List (Int × String)) :=
  [configurationDetails, executablesDetails, fileSystemDetails,
    hardwareDetails, instanceIdentityDetails, noneDetails,
    runtimeOpaqueDetails, sourcedDataDetails, storageOpaqueDetails]

/-- Modelled from the spec: the canonicalization in `getTrustClaimFromString`
is `strings.Trim(xstrings.Translate(xstrings.ToSnakeCase(s), ".- ", "_"), " \t")`
where `xstrings` is an external library whose code is not under src.  The
spec describes it as case- and punctuation-insensitive kebab/snake-case
canonicalization, so it is modelled as lower-casing every character and
mapping `.`, `-` and space to `_` (after which the final trim of blanks is a
no-op). -/
def canonicalizeTag (s : String) : String :=
  String.mk (s.data.map fun c =>
    if c = '.' ∨ c = '-' ∨ c = ' ' then '_' else c.toLower)

/-- The tag search of `getTrustClaimFromString`: first detail map containing
the canonical tag wins (tags are unambiguous across maps per the source's
NOTE: equal tags always carry equal claim values). -/
def lookupTag (canonTag : String) : Option Int :=
  detailsMaps.findSome? fun dm =>
    (dm.find? fun p => p.2 == canonTag).map Prod.fst

/-- trustclaim.go: `getTrustClaimFromInt`. -/
def getTrustClaimFromInt (i : Int) : Int × Option String :=
  if 127 < i ∨ i < -128 then
    (NoClaim, some ("out of range for TrustClaim: " ++ toString i))
  else (i, none)

/-- trustclaim.go: `getTrustClaimFromString` — numeric literal first, then
canonicalized tag lookup; `%q` renders the rejected string in quotes. -/
def getTrustClaimFromString (s : String) : Int × Option String :=
  match atoi s with
  | some i => getTrustClaimFromInt i
  | none =>
    match lookupTag (canonicalizeTag s) with
    | some claim => (claim, none)
    | none =>
      (NoClaim, some ("not a valid TrustClaim value: \"" ++ s ++ "\""))

/-- trustclaim.go: `func ToTrustClaim(v interface{}) (*TrustClaim, error)`.
The switch has no default case, so any unhandled dynamic type (bool, nil,
maps, and also `TrustTier` values, which the switch does not mention) falls
through with the zero-valued `claim` (NoClaim) and a nil error.  In the
`json.Number` branch the source wraps the (still nil) outer `err` with `%w`,
which renders as `%!w(<nil>)`. -/
def ToTrustClaim : GoValue → Int × Option String
  | .vTrustClaim c => (c, none)
  | .vTrustClaimPtr c => (c, none)
  | .vJsonNumber s =>
    match atoi s with
    | some i => getTrustClaimFromInt i
    | none =>
      (NoClaim, some ("not a valid TrustClaim value: " ++ s ++ ": %!w(<nil>)"))
  | .vString s => getTrustClaimFromString s
  | .vBytes s => getTrustClaimFromString s
  | .vInt i => getTrustClaimFromInt i
  | .vUInt n =>
    if maxInt64 < (n : Int) then
      (NoClaim, some ("not a valid TrustClaim value: " ++ toString n))
    else getTrustClaimFromInt (n : Int)
  | .vFloat q => getTrustClaimFromInt (ratTrunc q)
  | .vTrustTier _ => (NoClaim, none)
  | .vTrustTierPtr _ => (NoClaim, none)
  | .vBool _ => (NoClaim, none)
  | .vNull => (NoClaim, none)
  | .vMap => (NoClaim, none)

/-- trusttier.go: the `IntToTrustTier` map. -/
def IntToTrustTier (i : Int) : Option Int :=
  if i = 0 then some TrustTierNone
  else if i = 2 then some TrustTierAffirming
  else if i = 32 then some TrustTierWarning
  else if i = 96 then some TrustTierContraindicated
  else none

/-- trusttier.go: the `StringToTrustTier` map. -/
def StringToTrustTier (s : String) : Option Int :=
  if s = "none" then some TrustTierNone
  else if s = "affirming" then some TrustTierAffirming
  else if s = "warning" then some TrustTierWarning
  else if s = "contraindicated" then some TrustTierContraindicated
  else none

/-- trusttier.go: `getTrustTierFromInt`. -/
def getTrustTierFromInt (i : Int) : Int × Option String :=
  match IntToTrustTier i with
  | some tier => (tier, none)
  | none =>
    (TrustTierNone, some ("not a valid TrustTier value: " ++ toString i))

/-- trusttier.go: `getTrustTierFromString` — named tier first, then numeric
literal. -/
def getTrustTierFromString (s : String) : Int × Option String :=
  match StringToTrustTier s with
  | some tier => (tier, none)
  | none =>
    match atoi s with
    | some i => getTrustTierFromInt i
    | none =>
      (TrustTierNone, some ("not a valid TrustTier name: \"" ++ s ++ "\""))

/-- trusttier.go: `func ToTrustTier(v interface{}) (*TrustTier, error)`.
Unlike `ToTrustClaim` this switch has a default case producing a conversion
error.  In the `TrustClaim` branch the source calls `t.GetTier()`, which is
total over int8 (lemma `getTier_eq_some_tierOf`), modelled by `tierOf`.  The
`%v` rendering of a pointer in the default branch is an address, modelled as
`<addr>`; the `%v` of a map is modelled as `map[...]`. -/
def ToTrustTier : GoValue → Int × Option String
  | .vString s => getTrustTierFromString s
  | .vBytes s => getTrustTierFromString s
  | .vTrustClaim c => (tierOf c, none)
  | .vInt i => getTrustTierFromInt i
  | .vUInt n =>
    if maxInt64 < (n : Int) then
      (TrustTierNone, some ("not a valid TrustTier value: " ++ toString n))
    else getTrustTierFromInt (n : Int)
  | .vFloat q =>
    match IntToTrustTier (ratTrunc q) with
    | some t => (t, none)
    | none =>
      (TrustTierNone, some ("not a valid TrustTier value: " ++
        goFormatFloat6 q ++ " (" ++ toString (ratTrunc q) ++ ")"))
  | .vJsonNumber s =>
    match atoi s with
    | some i =>
      match IntToTrustTier i with
      | some t => (t, none)
      | none =>
        (TrustTierNone, some ("not a valid TrustTier value: " ++ s ++
          " (" ++ toString i ++ ")"))
    | none =>
      (TrustTierNone, some ("not a valid TrustTier value: " ++ s ++
        ": %!w(<nil>)"))
  | .vTrustTier t => (t, none)
  | .vTrustTierPtr t => (t, none)
  | .vTrustClaimPtr _ =>
    (TrustTierNone, some "cannot convert <addr> (type *ear.TrustClaim) to TrustTier")
  | .vBool b =>
    (TrustTierNone, some ("cannot convert " ++ (if b then "true" else "false")
      ++ " (type bool) to TrustTier"))
  | .vNull => (TrustTierNone, some "cannot convert <nil> (type <nil>) to TrustTier")
  | .vMap =>
    (TrustTierNone,
      some "cannot convert map[...] (type map[string]interface \x7b\x7d) to TrustTier")

/-- ear_appraisal.go: `int64Parser` — accepts `float64` (truncating), `int`
and `int64`; everything else is `(int64(0), "not an int64")`. -/
def int64Parser : GoValue → Int × Option String
  | .vFloat q => (ratTrunc q, none)
  | .vInt i => (i, none)
  | _ => (0, some "not an int64")

/-- trustvector.go: the eight named TrustClaim slots. -/
structure TrustVector where
  InstanceIdentity : Int
  Configuration : Int
  Executables : Int
  FileSystem : Int
  Hardware : Int
  RuntimeOpaque : Int
  StorageOpaque : Int
  SourcedData : Int
  deriving DecidableEq

/-- trustvector.go: `func (o TrustVector) AsMap() map[string]TrustClaim`,
as an association list in the source's textual order. -/
def TrustVector.AsMap (o : TrustVector) : List (String × Int) :=
  [("instance-identity", o.InstanceIdentity),
    ("configuration", o.Configuration),
    ("executables", o.Executables),
    ("file-system", o.FileSystem),
    ("hardware", o.Hardware),
    ("runtime-opaque", o.RuntimeOpaque),
    ("storage-opaque", o.StorageOpaque),
    ("sourced-data", o.SourcedData)]

/-- ear_appraisal.go: the `Appraisal` struct.  The three optional
`AppraisalExtensions` bags are omitted: they play no part in validation or
status updating.  `Status` and `TrustVector` are pointers in the source,
modelled as `Option`. -/
structure Appraisal where
  Status : Option Int
  TrustVector : Option TrustVector
  AppraisalPolicyID : Option String
  deriving DecidableEq

/-- The loop body of `Appraisal.UpdateStatusFromTrustVector`: for each claim
in the vector map, `claimTier := claimValue.GetTier()`, and
`if *o.Status < claimTier { *o.Status = claimTier }`.  A `GetTier` panic
would propagate (it cannot: `GetTier` is total). -/
def updateLoop : List (String × Int) → Int → Option Int
  | [], s => some s
  | kv :: rest, s =>
    match TrustClaim.GetTier kv.2 with
    | none => none
    | some claimTier =>
      updateLoop rest (if s < claimTier then claimTier else s)

/-- ear_appraisal.go: `func (o *Appraisal) UpdateStatusFromTrustVector()`.
`o.TrustVector.AsMap()` on a nil `TrustVector` dereferences nil (the method
has a value receiver) and panics: modelled as `none`.  With a non-nil
vector the loop always runs (AsMap has eight entries), and its body
dereferences `*o.Status`, so a nil `Status` also panics: `none`. -/
def Appraisal.UpdateStatusFromTrustVector (o : Appraisal) : Option Appraisal :=
  match o.TrustVector, o.Status with
  | none, _ => none
  | some _, none => none
  | some tv, some s0 =>
    (updateLoop tv.AsMap s0).map fun s => { o with Status := some s }

/-- ear_appraisal.go: `func (o Appraisal) validate() error`. -/
def Appraisal.validate (o : Appraisal) : Option String :=
  match o.Status with
  | none => some "missing mandatory 'ear.status'"
  | some _ => none

/-- verifier.go: the `VerifierIdentity` struct. -/
structure VerifierIdentity where
  Build : Option String
  Developer : Option String
  deriving DecidableEq

/-- ear.go: `EatProfile`. -/
def EatProfile : String := "tag:github.com,2023:veraison/ear"

/-- ear.go: `EatTrusteeProfile` (alias accepted alongside `EatProfile`). -/
def EatTrusteeProfile : String := "tag:github.com,2024:confidential-containers/Trustee"

/-- ear.go: the `AttestationResult` struct.  `Submods` (a Go map) is an
association list; `RawEvidence` bytes and the tee-info extension are carried
opaquely / omitted (no claim touches them).  `Nonce` is modelled as the
nonce string. -/
structure AttestationResult where
  Profile : Option String
  VerifierID : Option VerifierIdentity
  RawEvidence : Option (List Nat)
  IssuedAt : Option Int
  Nonce : Option String
  Submods : List (String × Appraisal)
  deriving DecidableEq

/-- Modelled from the spec: in the current ear.go, `validate` delegates the
nonce check to `eat.Nonce.Validate` from the external veraison/eat module,
whose code is not under src.  The spec states the byte length must lie in
[10, 74] inclusive, "else invalid with actual length reported"; the
repository's earlier in-tree validate (src/unnamed/part_001) implements
exactly `nLen > 74 || nLen < 10` over the nonce string with the message
`eat_nonce (%d bytes)`.  That check is embedded here. -/
def nonceLengthInvalid (n : String) : Bool :=
  74 < n.utf8ByteSize || n.utf8ByteSize < 10

/-- The `missing` list accumulated by `AttestationResult.validate`, in source
order: profile, iat, verifier-id, submods. -/
def AttestationResult.missingList (o : AttestationResult) : List String :=
  (if o.Profile = none then ["'eat_profile'"] else []) ++
  (if o.IssuedAt = none then ["'iat'"] else []) ++
  (if o.VerifierID = none then ["'verifier-id'"] else []) ++
  (if o.Submods = [] then
    ["'submods' (at least one appraisal must be present)"] else [])

/-- The `invalid` list accumulated by `AttestationResult.validate`, in source
order: profile, nonce, then one entry per failing submodule appraisal. -/
def AttestationResult.invalidList (o : AttestationResult) : List String :=
  (match o.Profile with
    | some p =>
      if p = EatProfile ∨ p = EatTrusteeProfile then []
      else ["eat_profile (" ++ p ++ ")"]
    | none => []) ++
  (match o.Nonce with
    | some n =>
      if nonceLengthInvalid n then
        ["eat_nonce (" ++ toString n.utf8ByteSize ++ " bytes)"]
      else []
    | none => []) ++
  (if o.Submods = [] then []
    else o.Submods.flatMap fun kv =>
      match kv.2.validate with
      | some e => ["submods[" ++ kv.1 ++ "]: " ++ e]
      | none => [])

/-- ear.go: `func (o AttestationResult) validate() error` — nil iff nothing
was accumulated, otherwise one error joining "missing mandatory ..." and
"invalid value(s) for ..." with "; ". -/
def AttestationResult.validate (o : AttestationResult) : Option String :=
  if o.missingList = [] ∧ o.invalidList = [] then none
  else
    some (String.intercalate "; "
      ((if o.missingList = [] then []
        else ["missing mandatory " ++ String.intercalate ", " o.missingList]) ++
        (if o.invalidList = [] then []
          else ["invalid value(s) for " ++
            String.intercalate ", " o.invalidList])))

/-- The per-submodule loop of `AttestationResult.UpdateStatusFromTrustVector`;
a panic (none) in one appraisal propagates. -/
def updateSubmods : List (String × Appraisal) → Option (List (String × Appraisal))
  | [] => some []
  | kv :: rest =>
    match kv.2.UpdateStatusFromTrustVector with
    | none => none
    | some a => (updateSubmods rest).map fun l => (kv.1, a) :: l

/-- ear.go: `func (o *AttestationResult) UpdateStatusFromTrustVector()`. -/
def AttestationResult.UpdateStatusFromTrustVector (o : AttestationResult) :
    Option AttestationResult :=
  (updateSubmods o.Submods).map fun subs => { o with Submods := subs }

/-- ear_appraisal.go: `fieldSpec` (wire name + mandatory flag parsed from the
struct tag; `omitempty` clears `IsMandatory`). -/
structure FieldSpec where
  Name : String
  IsMandatory : Bool
  deriving DecidableEq

/-- ear_appraisal.go: `func (o fieldSpec) QuoteName() string`. -/
def FieldSpec.QuoteName (o : FieldSpec) : String := "'" ++ o.Name ++ "'"

/-- A per-field parser as used by `populateStructFromMap`; only its error
component matters to the accumulated diagnostics (on success the parsed
value is assigned to the destination field, which no claim observes), so a
parser is modelled as its error: `none` = success. -/
def GoParser : Type := GoValue → Option String

/-- ear_appraisal.go: `doPopulateStructFromMap` — walks the declared fields
in order, accumulating (expected wire names, missing entries, invalid
entries).  Embedded structs splice their fields into the same walk, so the
schema is the flattened field list.  A field absent from the map is
"missing" when mandatory; a present field is parsed by the per-name parser
(defaulting to `defaultParser`), a failure appending
`'name' (error text)` to the invalid list. -/
def doPopulateStructFromMap (fields : List FieldSpec)
    (m : List (String × GoValue)) (parsers : List (String × GoParser))
    (defaultParser : GoParser) : List String × List String × List String :=
  match fields with
  | [] => ([], [], [])
  | f :: rest =>
    let r := doPopulateStructFromMap rest m parsers defaultParser
    match m.lookup f.Name with
    | none =>
      (f.Name :: r.1,
        (if f.IsMandatory then f.QuoteName :: r.2.1 else r.2.1), r.2.2)
    | some raw =>
      match ((parsers.lookup f.Name).getD defaultParser) raw with
      | some msg =>
        (f.Name :: r.1, r.2.1, (f.QuoteName ++ " (" ++ msg ++ ")") :: r.2.2)
      | none => (f.Name :: r.1, r.2.1, r.2.2)

/-- ear_appraisal.go: `getExtraKeys` — input keys not among the expected
wire names. -/
def getExtraKeys (m : List (String × GoValue)) (expected : List String) :
    List String :=
  (m.map Prod.fst).filter fun k => !(expected.contains k)

/-- The `problems` slice of `populateStructFromMap`: the non-empty groups in
source order — missing, invalid, then (unless `ignoreUnexpected`)
unexpected. -/
def populateProblems (fields : List FieldSpec)
    (m : List (String × GoValue)) (parsers : List (String × GoParser))
    (defaultParser : GoParser) (ignoreUnexpected : Bool) : List String :=
  (if (doPopulateStructFromMap fields m parsers defaultParser).2.1 = [] then []
    else ["missing mandatory " ++ String.intercalate ", "
      (doPopulateStructFromMap fields m parsers defaultParser).2.1]) ++
  (if (doPopulateStructFromMap fields m parsers defaultParser).2.2 = [] then []
    else ["invalid value(s) for " ++ String.intercalate ", "
      (doPopulateStructFromMap fields m parsers defaultParser).2.2]) ++
  (if getExtraKeys m (doPopulateStructFromMap fields m parsers defaultParser).1 = []
      ∨ ignoreUnexpected then []
    else ["unexpected: " ++ String.intercalate ", "
      (getExtraKeys m (doPopulateStructFromMap fields m parsers defaultParser).1)])

/-- ear_appraisal.go: `populateStructFromMap` — accumulates all problems and
returns nil only when zero entries were accumulated; otherwise joins the
non-empty groups "missing mandatory ...", "invalid value(s) for ...",
"unexpected: ..." with "; " in that order (unexpected only when
`ignoreUnexpected` is false). -/
def populateStructFromMap (fields : List FieldSpec)
    (m : List (String × GoValue)) (parsers : List (String × GoParser))
    (defaultParser : GoParser) (ignoreUnexpected : Bool) : Option String :=
  if populateProblems fields m parsers defaultParser ignoreUnexpected = []
  then none
  else some (String.intercalate "; "
    (populateProblems fields m parsers defaultParser ignoreUnexpected))

/-! ## Theorems -/

theorem getTier_eq_some_tierOf (o : Int) :
    TrustClaim.GetTier o = some (tierOf o) := by
  unfold TrustClaim.GetTier tierOf
  split_ifs with h1 h2 h3 h4 <;> try rfl
  exfalso
  unfold TrustClaim.IsNone at h1
  unfold TrustClaim.IsAffirming at h2
  unfold TrustClaim.IsWarning at h3
  unfold TrustClaim.IsContraindicated at h4
  omega

/-- C1: For every TrustClaim value in the int8 range [-128,127], GetTier
returns exactly one of the four tiers, matching the four range predicates:
none on [-1,1], affirming on [-32,-2] ∪ [2,31], warning on [-96,-33] ∪
[32,95], contraindicated on [-128,-97] ∪ [96,127].  The four ranges partition
the int8 domain — at least one holds and no two overlap — so the final panic
branch of GetTier is unreachable (`GetTier ≠ none`). -/
theorem getTier_total_partition_int8 (c : Int)
    (hlo : -128 ≤ c) (hhi : c ≤ 127) :
    (TrustClaim.GetTier c = some TrustTierNone ↔ (-1 ≤ c ∧ c ≤ 1)) ∧
    (TrustClaim.GetTier c = some TrustTierAffirming ↔
      ((-32 ≤ c ∧ c ≤ -2) ∨ (2 ≤ c ∧ c ≤ 31))) ∧
    (TrustClaim.GetTier c = some TrustTierWarning ↔
      ((-96 ≤ c ∧ c ≤ -33) ∨ (32 ≤ c ∧ c ≤ 95))) ∧
    (TrustClaim.GetTier c = some TrustTierContraindicated ↔
      ((-128 ≤ c ∧ c ≤ -97) ∨ (96 ≤ c ∧ c ≤ 127))) ∧
    TrustClaim.GetTier c ≠ none ∧
    (TrustClaim.IsNone c ∨ TrustClaim.IsAffirming c ∨ TrustClaim.IsWarning c ∨
      TrustClaim.IsContraindicated c) ∧
    ¬(TrustClaim.IsNone c ∧ TrustClaim.IsAffirming c) ∧
    ¬(TrustClaim.IsNone c ∧ TrustClaim.IsWarning c) ∧
    ¬(TrustClaim.IsNone c ∧ TrustClaim.IsContraindicated c) ∧
    ¬(TrustClaim.IsAffirming c ∧ TrustClaim.IsWarning c) ∧
    ¬(TrustClaim.IsAffirming c ∧ TrustClaim.IsContraindicated c) ∧
    ¬(TrustClaim.IsWarning c ∧ TrustClaim.IsContraindicated c) := by
  unfold TrustClaim.GetTier
  unfold TrustClaim.IsNone TrustClaim.IsAffirming TrustClaim.IsWarning
    TrustClaim.IsContraindicated
  unfold TrustTierNone TrustTierAffirming TrustTierWarning
    TrustTierContraindicated
  split_ifs <;> simp <;> omega

/-- Witness for C1 at the concrete claim value 32 (UnsafeHardwareClaim). -/
theorem getTier_total_partition_int8_witness :
    (-128 : Int) ≤ 32 ∧ (32 : Int) ≤ 127 ∧
    (TrustClaim.GetTier 32 = some TrustTierWarning ↔
      ((-96 ≤ (32 : Int) ∧ (32 : Int) ≤ -33) ∨
        (32 ≤ (32 : Int) ∧ (32 : Int) ≤ 95))) := by
  refine ⟨by decide, by decide, ?_⟩
  exact (getTier_total_partition_int8 32 (by decide) (by decide)).2.2.1

theorem step_max (s t : Int) : (if s < t then t else s) = max s t := by
  rcases lt_or_le s t with h | h
  · rw [if_pos h, max_eq_right h.le]
  · rw [if_neg (not_lt.mpr h), max_eq_left h]

theorem updateLoop_eq (l : List (String × Int)) (s : Int) :
    updateLoop l s = some (l.foldl (fun a kv => max a (tierOf kv.2)) s) := by
  induction l generalizing s with
  | nil => rfl
  | cons kv rest ih =>
    rw [updateLoop, getTier_eq_some_tierOf]
    show updateLoop rest (if s < tierOf kv.2 then tierOf kv.2 else s) = _
    rw [List.foldl_cons, step_max]
    exact ih _

theorem le_foldl_tierOf (l : List (String × Int)) (s : Int) :
    s ≤ l.foldl (fun a kv => max a (tierOf kv.2)) s := by
  induction l generalizing s with
  | nil => exact le_refl s
  | cons kv rest ih =>
    rw [List.foldl_cons]
    exact le_trans (le_max_left _ _) (ih _)

theorem mem_le_foldl_tierOf (l : List (String × Int)) (s : Int)
    (kv : String × Int) (h : kv ∈ l) :
    tierOf kv.2 ≤ l.foldl (fun a kv => max a (tierOf kv.2)) s := by
  induction l generalizing s with
  | nil => cases h
  | cons kv0 rest ih =>
    rw [List.foldl_cons]
    rcases List.mem_cons.mp h with h0 | h0
    · subst h0
      exact le_trans (le_max_right _ _) (le_foldl_tierOf _ _)
    · exact ih _ h0

theorem foldl_tierOf_fix (l : List (String × Int)) (s : Int)
    (h : ∀ kv ∈ l, tierOf kv.2 ≤ s) :
    l.foldl (fun a kv => max a (tierOf kv.2)) s = s := by
  induction l with
  | nil => rfl
  | cons kv0 rest ih =>
    rw [List.foldl_cons, max_eq_left (h kv0 (List.mem_cons_self _ _))]
    exact ih fun kv hkv => h kv (List.mem_cons_of_mem _ hkv)

theorem appraisal_update_spec (a : Appraisal) (s0 : Int) (tv : TrustVector)
    (hs : a.Status = some s0) (htv : a.TrustVector = some tv) :
    a.UpdateStatusFromTrustVector = some { a with
      Status := some (tv.AsMap.foldl (fun x kv => max x (tierOf kv.2)) s0) } := by
  obtain ⟨st, tvf, pid⟩ := a
  obtain rfl : st = some s0 := hs
  obtain rfl : tvf = some tv := htv
  simp [Appraisal.UpdateStatusFromTrustVector, updateLoop_eq]

theorem appraisal_update_fixed (a : Appraisal) (s1 : Int) (tv : TrustVector)
    (hs : a.Status = some s1) (htv : a.TrustVector = some tv)
    (hge : ∀ kv ∈ tv.AsMap, tierOf kv.2 ≤ s1) :
    a.UpdateStatusFromTrustVector = some a := by
  rw [appraisal_update_spec a s1 tv hs htv, foldl_tierOf_fix _ _ hge, ← hs]

theorem updateSubmods_spec (l : List (String × Appraisal))
    (h : ∀ kv ∈ l, kv.2.Status ≠ none ∧ kv.2.TrustVector ≠ none) :
    ∃ l2, updateSubmods l = some l2 ∧ updateSubmods l2 = some l2 ∧
      List.Forall₂ (fun kv kv2 : String × Appraisal =>
        kv.1 = kv2.1 ∧
        ∀ s0 s1, kv.2.Status = some s0 → kv2.2.Status = some s1 → s0 ≤ s1)
        l l2 := by
  induction l with
  | nil => exact ⟨[], rfl, rfl, List.Forall₂.nil⟩
  | cons kv rest ih =>
    obtain ⟨hst, htv⟩ := h kv (List.mem_cons_self _ _)
    obtain ⟨s0, hs0⟩ := Option.ne_none_iff_exists'.mp hst
    obtain ⟨tv, htv0⟩ := Option.ne_none_iff_exists'.mp htv
    obtain ⟨l2, hl2, hl2fix, hall⟩ :=
      ih fun x hx => h x (List.mem_cons_of_mem _ hx)
    set s1 := tv.AsMap.foldl (fun x p => max x (tierOf p.2)) s0 with hs1def
    set a2 : Appraisal := { kv.2 with Status := some s1 } with ha2def
    have hup : kv.2.UpdateStatusFromTrustVector = some a2 :=
      appraisal_update_spec kv.2 s0 tv hs0 htv0
    have ha2fix : a2.UpdateStatusFromTrustVector = some a2 := by
      refine appraisal_update_fixed a2 s1 tv rfl htv0 ?_
      exact fun p hp => mem_le_foldl_tierOf _ _ p hp
    refine ⟨(kv.1, a2) :: l2, ?_, ?_, ?_⟩
    · rw [updateSubmods, hup, hl2]
      rfl
    · rw [updateSubmods, ha2fix, hl2fix]
      rfl
    · refine List.Forall₂.cons ⟨rfl, ?_⟩ hall
      intro x0 x1 hx0 hx1
      rw [hs0] at hx0
      have hx1s : some s1 = some x1 := hx1
      have hx0e : s0 = x0 := Option.some.inj hx0
      have hx1e : s1 = x1 := Option.some.inj hx1s
      subst hx0e
      subst hx1e
      exact le_foldl_tierOf _ _

/-- C2: For every Appraisal with non-nil Status and TrustVector,
UpdateStatusFromTrustVector leaves the Status tier no more trustworthy than
before (numerically, the tier value never decreases, and higher tier values
are less trustworthy), and the operation is idempotent.  The same holds for
every submodule Appraisal under AttestationResult.UpdateStatusFromTrustVector. -/
theorem updateStatus_monotone_idempotent :
    (∀ (a : Appraisal) (s0 : Int) (tv : TrustVector),
      a.Status = some s0 → a.TrustVector = some tv →
      ∃ (a2 : Appraisal) (s1 : Int),
        a.UpdateStatusFromTrustVector = some a2 ∧
        a2.Status = some s1 ∧ s0 ≤ s1 ∧
        a2.UpdateStatusFromTrustVector = some a2) ∧
    (∀ ar : AttestationResult,
      (∀ kv ∈ ar.Submods, kv.2.Status ≠ none ∧ kv.2.TrustVector ≠ none) →
      ∃ ar2 : AttestationResult,
        ar.UpdateStatusFromTrustVector = some ar2 ∧
        ar2.UpdateStatusFromTrustVector = some ar2 ∧
        List.Forall₂ (fun kv kv2 : String × Appraisal =>
          kv.1 = kv2.1 ∧
          ∀ s0 s1, kv.2.Status = some s0 → kv2.2.Status = some s1 → s0 ≤ s1)
          ar.Submods ar2.Submods) := by
  constructor
  · intro a s0 tv hs htv
    refine ⟨_, _, appraisal_update_spec a s0 tv hs htv, rfl,
      le_foldl_tierOf _ _, ?_⟩
    exact appraisal_update_fixed _ _ tv rfl htv
      (fun p hp => mem_le_foldl_tierOf _ _ p hp)
  · intro ar h
    obtain ⟨l2, hl2, hl2fix, hall⟩ := updateSubmods_spec ar.Submods h
    refine ⟨{ ar with Submods := l2 }, ?_, ?_, hall⟩
    · unfold AttestationResult.UpdateStatusFromTrustVector
      rw [hl2]
      rfl
    · unfold AttestationResult.UpdateStatusFromTrustVector
      rw [hl2fix]
      rfl

/-- Witness for C2 at a concrete Appraisal (status none-tier 0, hardware
claim 32): the status is raised numerically (lowered in trustworthiness)
and a second application is a no-op. -/
theorem updateStatus_monotone_idempotent_witness :
    ∃ (a2 : Appraisal) (s1 : Int),
      (⟨some 0, some ⟨2, 0, 0, 0, 32, 0, 0, 0⟩, none⟩ :
        Appraisal).UpdateStatusFromTrustVector = some a2 ∧
      a2.Status = some s1 ∧ (0 : Int) ≤ s1 ∧
      a2.UpdateStatusFromTrustVector = some a2 :=
  updateStatus_monotone_idempotent.1 _ 0 _ rfl rfl

theorem updateSubmods_none (l : List (String × Appraisal))
    (kv : String × Appraisal) (hmem : kv ∈ l)
    (hpanic : kv.2.UpdateStatusFromTrustVector = none) :
    updateSubmods l = none := by
  induction l with
  | nil => cases hmem
  | cons kv0 rest ih =>
    rw [updateSubmods]
    rcases List.mem_cons.mp hmem with h0 | h0
    · subst h0
      rw [hpanic]
    · cases hup : kv0.2.UpdateStatusFromTrustVector with
      | none => rfl
      | some a => rw [ih h0]; rfl

/-- C10: Calling Appraisal.UpdateStatusFromTrustVector with a nil TrustVector
field, or with a nil Status field while some vector claim's tier exceeds
none, dereferences a nil pointer and panics (modelled: the operation yields
`none` instead of a result); the same panic is reachable through
AttestationResult.UpdateStatusFromTrustVector for any such submodule
Appraisal. -/
theorem updateStatus_nil_pointer_panics :
    (∀ a : Appraisal, a.TrustVector = none →
      a.UpdateStatusFromTrustVector = none) ∧
    (∀ (a : Appraisal) (tv : TrustVector),
      a.TrustVector = some tv → a.Status = none →
      (∃ kv ∈ tv.AsMap, TrustTierNone < tierOf kv.2) →
      a.UpdateStatusFromTrustVector = none) ∧
    (∀ (ar : AttestationResult) (kv : String × Appraisal),
      kv ∈ ar.Submods → kv.2.UpdateStatusFromTrustVector = none →
      ar.UpdateStatusFromTrustVector = none) := by
  refine ⟨?_, ?_, ?_⟩
  · intro a h
    unfold Appraisal.UpdateStatusFromTrustVector
    rw [h]
  · intro a tv htv hs _
    unfold Appraisal.UpdateStatusFromTrustVector
    rw [htv, hs]
  · intro ar kv hmem hpanic
    unfold AttestationResult.UpdateStatusFromTrustVector
    rw [updateSubmods_none ar.Submods kv hmem hpanic]
    rfl

/-- Witness for C10: a concrete Appraisal with nil TrustVector panics, and a
concrete Appraisal with nil Status and an unsafe-hardware claim (tier
warning > none) panics. -/
theorem updateStatus_nil_pointer_panics_witness :
    (⟨some 0, none, none⟩ : Appraisal).UpdateStatusFromTrustVector = none ∧
    (⟨none, some ⟨0, 0, 0, 0, 32, 0, 0, 0⟩, none⟩ :
      Appraisal).UpdateStatusFromTrustVector = none := by
  constructor
  · exact updateStatus_nil_pointer_panics.1 _ rfl
  · exact updateStatus_nil_pointer_panics.2.1 _ ⟨0, 0, 0, 0, 32, 0, 0, 0⟩ rfl rfl
      ⟨("hardware", 32), by decide⟩

theorem ite_nil_of_pos (c : Prop) [Decidable c] (l : List String)
    (hl : l ≠ []) : ((if c then [] else l) = []) ↔ c := by
  split_ifs with h <;> simp [h, hl]

theorem ite_nil_of_neg (c : Prop) [Decidable c] (l : List String)
    (hl : l ≠ []) : ((if c then l else []) = []) ↔ ¬c := by
  split_ifs with h <;> simp [h, hl]

theorem ite_none_eq_none_iff (c : Prop) [Decidable c] (x : String) :
    ((if c then (none : Option String) else some x) = none) ↔ c := by
  split_ifs with h <;> simp [h]

theorem doPopulate_empty_map (fields : List FieldSpec)
    (parsers : List (String × GoParser)) (defaultParser : GoParser) :
    doPopulateStructFromMap fields [] parsers defaultParser =
      (fields.map (fun f => f.Name),
        (fields.filter fun f => f.IsMandatory).map FieldSpec.QuoteName,
        []) := by
  induction fields with
  | nil => rfl
  | cons f rest ih =>
    rw [doPopulateStructFromMap, ih]
    cases hm : f.IsMandatory <;> simp [List.filter_cons, hm]

theorem mem_missing_of_absent (fields : List FieldSpec)
    (m : List (String × GoValue)) (parsers : List (String × GoParser))
    (defaultParser : GoParser) :
    ∀ f ∈ fields, f.IsMandatory = true → m.lookup f.Name = none →
      f.QuoteName ∈ (doPopulateStructFromMap fields m parsers defaultParser).2.1 := by
  induction fields with
  | nil => intro f hf; cases hf
  | cons f0 rest ih =>
    intro f hf hman hlook
    rcases List.mem_cons.mp hf with rfl | hmem
    · simp only [doPopulateStructFromMap, hlook, hman, if_true]
      exact List.mem_cons_self _ _
    · have hrest := ih f hmem hman hlook
      cases hcase : m.lookup f0.Name with
      | none =>
        simp only [doPopulateStructFromMap, hcase]
        cases f0.IsMandatory <;> simp [hrest]
      | some raw =>
        simp only [doPopulateStructFromMap, hcase]
        cases ((parsers.lookup f0.Name).getD defaultParser) raw <;>
          simp [hrest]

theorem mem_invalid_of_parse_failure (fields : List FieldSpec)
    (m : List (String × GoValue)) (parsers : List (String × GoParser))
    (defaultParser : GoParser) :
    ∀ f ∈ fields, ∀ raw, m.lookup f.Name = some raw →
      ∀ msg, ((parsers.lookup f.Name).getD defaultParser) raw = some msg →
      (f.QuoteName ++ " (" ++ msg ++ ")") ∈
        (doPopulateStructFromMap fields m parsers defaultParser).2.2 := by
  induction fields with
  | nil => intro f hf; cases hf
  | cons f0 rest ih =>
    intro f hf raw hlook msg hfail
    rcases List.mem_cons.mp hf with rfl | hmem
    · simp only [doPopulateStructFromMap, hlook, hfail]
      exact List.mem_cons_self _ _
    · have hrest := ih f hmem raw hlook msg hfail
      cases hcase : m.lookup f0.Name with
      | none =>
        simp only [doPopulateStructFromMap, hcase]
        cases f0.IsMandatory <;> simp [hrest]
      | some raw0 =>
        simp only [doPopulateStructFromMap, hcase]
        cases ((parsers.lookup f0.Name).getD defaultParser) raw0 <;>
          simp [hrest]

theorem populate_problems_nil_iff (fields : List FieldSpec)
    (m : List (String × GoValue)) (parsers : List (String × GoParser))
    (defaultParser : GoParser) (ignoreUnexpected : Bool) :
    populateProblems fields m parsers defaultParser ignoreUnexpected = [] ↔
      ((doPopulateStructFromMap fields m parsers defaultParser).2.1 = [] ∧
        (doPopulateStructFromMap fields m parsers defaultParser).2.2 = [] ∧
        (ignoreUnexpected = true ∨
          getExtraKeys m (doPopulateStructFromMap fields m parsers defaultParser).1 = [])) := by
  unfold populateProblems
  rw [List.append_eq_nil, List.append_eq_nil]
  rw [ite_nil_of_pos _ _ (by simp), ite_nil_of_pos _ _ (by simp),
    ite_nil_of_pos _ _ (by simp)]
  constructor
  · rintro ⟨⟨h1, h2⟩, h3⟩
    exact ⟨h1, h2, h3.symm⟩
  · rintro ⟨h1, h2, h3⟩
    exact ⟨⟨h1, h2⟩, h3.symm⟩

/-- C3: populateStructFromMap accumulates every problem rather than stopping
at the first: each absent mandatory field contributes a missing entry, each
field whose parser fails contributes an invalid entry, unexpected keys are
collected (rejected only when the strictness flag says so); the result is
nil exactly when zero entries were accumulated, and otherwise one error
joining the non-empty groups "; "-separated in the order missing, invalid,
unexpected.  Decoding the empty map records a missing entry for every
mandatory field of the schema, in declaration order. -/
theorem populateStructFromMap_accumulates (fields : List FieldSpec)
    (m : List (String × GoValue)) (parsers : List (String × GoParser))
    (defaultParser : GoParser) (ignoreUnexpected : Bool) :
    (populateStructFromMap fields m parsers defaultParser ignoreUnexpected = none ↔
      ((doPopulateStructFromMap fields m parsers defaultParser).2.1 = [] ∧
        (doPopulateStructFromMap fields m parsers defaultParser).2.2 = [] ∧
        (ignoreUnexpected = true ∨
          getExtraKeys m (doPopulateStructFromMap fields m parsers defaultParser).1 = []))) ∧
    (∀ f ∈ fields, f.IsMandatory = true → m.lookup f.Name = none →
      f.QuoteName ∈ (doPopulateStructFromMap fields m parsers defaultParser).2.1) ∧
    (∀ f ∈ fields, ∀ raw, m.lookup f.Name = some raw →
      ∀ msg, ((parsers.lookup f.Name).getD defaultParser) raw = some msg →
      (f.QuoteName ++ " (" ++ msg ++ ")") ∈
        (doPopulateStructFromMap fields m parsers defaultParser).2.2) ∧
    (¬((doPopulateStructFromMap fields m parsers defaultParser).2.1 = [] ∧
        (doPopulateStructFromMap fields m parsers defaultParser).2.2 = [] ∧
        (ignoreUnexpected = true ∨
          getExtraKeys m (doPopulateStructFromMap fields m parsers defaultParser).1 = [])) →
      populateStructFromMap fields m parsers defaultParser ignoreUnexpected =
        some (String.intercalate "; "
          ((if (doPopulateStructFromMap fields m parsers defaultParser).2.1 = [] then []
            else ["missing mandatory " ++ String.intercalate ", "
              (doPopulateStructFromMap fields m parsers defaultParser).2.1]) ++
            (if (doPopulateStructFromMap fields m parsers defaultParser).2.2 = [] then []
              else ["invalid value(s) for " ++ String.intercalate ", "
                (doPopulateStructFromMap fields m parsers defaultParser).2.2]) ++
            (if getExtraKeys m (doPopulateStructFromMap fields m parsers defaultParser).1 = []
                ∨ ignoreUnexpected then []
              else ["unexpected: " ++ String.intercalate ", "
                (getExtraKeys m (doPopulateStructFromMap fields m parsers defaultParser).1)])))) ∧
    (doPopulateStructFromMap fields [] parsers defaultParser).2.1 =
      (fields.filter fun f => f.IsMandatory).map FieldSpec.QuoteName := by
  refine ⟨?_, mem_missing_of_absent fields m parsers defaultParser,
    mem_invalid_of_parse_failure fields m parsers defaultParser, ?_, ?_⟩
  · unfold populateStructFromMap
    rw [ite_none_eq_none_iff]
    exact populate_problems_nil_iff fields m parsers defaultParser
      ignoreUnexpected
  · intro hne
    have hne2 : ¬populateProblems fields m parsers defaultParser
        ignoreUnexpected = [] :=
      fun heq => hne ((populate_problems_nil_iff fields m parsers defaultParser
        ignoreUnexpected).mp heq)
    unfold populateStructFromMap
    rw [if_neg hne2]
    rfl
  · rw [doPopulate_empty_map]

/-- Witness for C3: decoding the empty map against a two-mandatory-field
schema names both missing fields in one message. -/
theorem populateStructFromMap_accumulates_witness :
    populateStructFromMap [⟨"eat_profile", true⟩, ⟨"iat", true⟩] []
      [] (fun _ => none) true =
      some "missing mandatory 'eat_profile', 'iat'" := by
  have h := (populateStructFromMap_accumulates
    [⟨"eat_profile", true⟩, ⟨"iat", true⟩] [] [] (fun _ => none) true).2.2.2.1
    (fun hc => absurd hc.1 (by decide))
  rw [h]
  rfl

theorem appraisal_validate_none_iff (a : Appraisal) :
    a.validate = none ↔ a.Status ≠ none := by
  obtain ⟨st, tv, pid⟩ := a
  cases st <;> simp [Appraisal.validate]

theorem validate_none_iff_lists (o : AttestationResult) :
    o.validate = none ↔ (o.missingList = [] ∧ o.invalidList = []) := by
  unfold AttestationResult.validate
  split_ifs with h <;> simp [h]

theorem missingList_nil_iff (o : AttestationResult) :
    o.missingList = [] ↔
      (o.Profile ≠ none ∧ o.IssuedAt ≠ none ∧ o.VerifierID ≠ none ∧
        o.Submods ≠ []) := by
  unfold AttestationResult.missingList
  rw [List.append_eq_nil, List.append_eq_nil, List.append_eq_nil]
  rw [ite_nil_of_neg _ _ (by simp), ite_nil_of_neg _ _ (by simp),
    ite_nil_of_neg _ _ (by simp), ite_nil_of_neg _ _ (by simp)]
  constructor
  · rintro ⟨⟨⟨h1, h2⟩, h3⟩, h4⟩
    exact ⟨h1, h2, h3, h4⟩
  · rintro ⟨h1, h2, h3, h4⟩
    exact ⟨⟨⟨h1, h2⟩, h3⟩, h4⟩

theorem invalidList_profile_nil_iff (o : AttestationResult) :
    ((match o.Profile with
      | some p =>
        if p = EatProfile ∨ p = EatTrusteeProfile then ([] : List String)
        else ["eat_profile (" ++ p ++ ")"]
      | none => []) = []) ↔
      ∀ p, o.Profile = some p → (p = EatProfile ∨ p = EatTrusteeProfile) := by
  cases o.Profile with
  | none => simp
  | some p =>
    dsimp only
    split_ifs with h
    · exact iff_of_true rfl fun p2 hp2 => by cases hp2; exact h
    · refine iff_of_false (by simp) fun hall => h (hall p rfl)

theorem invalidList_nonce_nil_iff (o : AttestationResult) :
    ((match o.Nonce with
      | some n =>
        if nonceLengthInvalid n then
          ["eat_nonce (" ++ toString n.utf8ByteSize ++ " bytes)"]
        else ([] : List String)
      | none => []) = []) ↔
      ∀ n, o.Nonce = some n →
        (10 ≤ n.utf8ByteSize ∧ n.utf8ByteSize ≤ 74) := by
  cases o.Nonce with
  | none => simp
  | some n =>
    dsimp only
    cases hb : nonceLengthInvalid n with
    | false =>
      rw [if_neg (by simp [hb])]
      have hlen : 10 ≤ n.utf8ByteSize ∧ n.utf8ByteSize ≤ 74 := by
        simp only [nonceLengthInvalid, Bool.or_eq_false_iff,
          decide_eq_false_iff_not, not_lt] at hb
        omega
      exact iff_of_true rfl fun n2 hn2 => by cases hn2; exact hlen
    | true =>
      rw [if_pos rfl]
      have hlen : ¬(10 ≤ n.utf8ByteSize ∧ n.utf8ByteSize ≤ 74) := by
        simp only [nonceLengthInvalid, Bool.or_eq_true,
          decide_eq_true_eq] at hb
        omega
      exact iff_of_false (by simp) fun hall => hlen (hall n rfl)

theorem invalidList_submods_nil_iff (o : AttestationResult) :
    ((if o.Submods = [] then ([] : List String)
      else o.Submods.flatMap fun kv =>
        match kv.2.validate with
        | some e => ["submods[" ++ kv.1 ++ "]: " ++ e]
        | none => []) = []) ↔
      ∀ kv ∈ o.Submods, kv.2.Status ≠ none := by
  by_cases hs : o.Submods = []
  · simp [hs]
  · rw [if_neg hs, List.flatMap_eq_nil_iff]
    constructor
    · intro h kv hkv
      have := h kv hkv
      cases hv : kv.2.validate with
      | none => exact (appraisal_validate_none_iff kv.2).mp hv
      | some e => rw [hv] at this; cases this
    · intro h kv hkv
      rw [(appraisal_validate_none_iff kv.2).mpr (h kv hkv)]

theorem invalidList_nil_iff (o : AttestationResult) :
    o.invalidList = [] ↔
      ((∀ p, o.Profile = some p → (p = EatProfile ∨ p = EatTrusteeProfile)) ∧
        (∀ n, o.Nonce = some n →
          (10 ≤ n.utf8ByteSize ∧ n.utf8ByteSize ≤ 74)) ∧
        (∀ kv ∈ o.Submods, kv.2.Status ≠ none)) := by
  unfold AttestationResult.invalidList
  rw [List.append_eq_nil, List.append_eq_nil]
  rw [and_assoc]
  exact and_congr (invalidList_profile_nil_iff o)
    (and_congr (invalidList_nonce_nil_iff o) (invalidList_submods_nil_iff o))

theorem validate_characterization (o : AttestationResult) :
    o.validate = none ↔
      ((∃ p, o.Profile = some p ∧ (p = EatProfile ∨ p = EatTrusteeProfile)) ∧
        o.IssuedAt ≠ none ∧ o.VerifierID ≠ none ∧
        (∀ n, o.Nonce = some n →
          (10 ≤ n.utf8ByteSize ∧ n.utf8ByteSize ≤ 74)) ∧
        o.Submods ≠ [] ∧
        ∀ kv ∈ o.Submods, kv.2.Status ≠ none) := by
  rw [validate_none_iff_lists, missingList_nil_iff, invalidList_nil_iff]
  constructor
  · rintro ⟨⟨hp, hi, hv, hs⟩, hpok, hn, ha⟩
    cases hprof : o.Profile with
    | none => exact absurd hprof hp
    | some p => exact ⟨⟨p, rfl, hpok p hprof⟩, hi, hv, hn, hs, ha⟩
  · rintro ⟨⟨p, hprof, hpok⟩, hi, hv, hn, hs, ha⟩
    refine ⟨⟨by simp [hprof], hi, hv, hs⟩, ?_, hn, ha⟩
    intro p2 hp2
    rw [hprof] at hp2
    cases hp2
    exact hpok

/-- C4: AttestationResult.validate() returns nil if and only if: Profile is
present and equals one of the registered accepted profile URIs, IssuedAt is
present, VerifierID is present, Nonce when present passes its validation
(byte length in [10,74]), Submods is non-empty and every Appraisal in
Submods independently validates (its Status is present).  When the profile
is present but not accepted, the invalid list carries "eat_profile" with
the offending value echoed; a failing validate returns the single error
joining all missing fields then all invalid fields. -/
theorem attestationResult_validate_iff (o : AttestationResult) :
    (o.validate = none ↔
      ((∃ p, o.Profile = some p ∧ (p = EatProfile ∨ p = EatTrusteeProfile)) ∧
        o.IssuedAt ≠ none ∧ o.VerifierID ≠ none ∧
        (∀ n, o.Nonce = some n →
          (10 ≤ n.utf8ByteSize ∧ n.utf8ByteSize ≤ 74)) ∧
        o.Submods ≠ [] ∧
        ∀ kv ∈ o.Submods, kv.2.Status ≠ none)) ∧
    (∀ p, o.Profile = some p → p ≠ EatProfile → p ≠ EatTrusteeProfile →
      ("eat_profile (" ++ p ++ ")") ∈ o.invalidList) ∧
    (¬(o.missingList = [] ∧ o.invalidList = []) →
      o.validate = some (String.intercalate "; "
        ((if o.missingList = [] then []
          else ["missing mandatory " ++
            String.intercalate ", " o.missingList]) ++
          (if o.invalidList = [] then []
            else ["invalid value(s) for " ++
              String.intercalate ", " o.invalidList])))) := by
  refine ⟨validate_characterization o, ?_, ?_⟩
  · intro p hp h1 h2
    unfold AttestationResult.invalidList
    rw [hp]
    dsimp only
    rw [if_neg (by simp [h1, h2])]
    exact List.mem_append_left _ (List.mem_append_left _
      (List.mem_cons_self _ _))
  · intro hne
    unfold AttestationResult.validate
    rw [if_neg hne]

/-- Witness for C4: a concrete fully-valid AttestationResult validates. -/
theorem attestationResult_validate_iff_witness :
    ({ Profile := some EatProfile,
        VerifierID := some ⟨some "rrtrap-v1.0.0", some "Acme Inc."⟩,
        RawEvidence := none,
        IssuedAt := some 1666091373,
        Nonce := some "0123456789abcdef",
        Submods := [("test",
          ⟨some TrustTierAffirming, none, some "policy://test/01234"⟩)] } :
      AttestationResult).validate = none := by
  apply (attestationResult_validate_iff _).1.mpr
  refine ⟨⟨EatProfile, rfl, Or.inl rfl⟩, by simp, by simp, ?_, by simp, ?_⟩
  · intro n hn
    cases hn
    decide
  · intro kv hkv
    rw [List.mem_singleton] at hkv
    subst hkv
    simp

/-- C7: with every other mandatory field valid, validate() accepts an
optional nonce exactly when its byte length lies in [10,74] inclusive: a
nonce of length 9 or 75 is rejected, one of length 10 or 74 is accepted. -/
theorem validate_nonce_boundary (o : AttestationResult) (n : String)
    (hp : o.Profile = some EatProfile) (hi : o.IssuedAt ≠ none)
    (hv : o.VerifierID ≠ none) (hn : o.Nonce = some n)
    (hs : o.Submods ≠ []) (ha : ∀ kv ∈ o.Submods, kv.2.Status ≠ none) :
    (o.validate = none ↔ (10 ≤ n.utf8ByteSize ∧ n.utf8ByteSize ≤ 74)) ∧
    ((n.utf8ByteSize = 9 ∨ n.utf8ByteSize = 75) → o.validate ≠ none) ∧
    ((n.utf8ByteSize = 10 ∨ n.utf8ByteSize = 74) → o.validate = none) := by
  have hiff : o.validate = none ↔
      (10 ≤ n.utf8ByteSize ∧ n.utf8ByteSize ≤ 74) := by
    rw [validate_characterization]
    constructor
    · rintro ⟨-, -, -, hnn, -, -⟩
      exact hnn n hn
    · intro hb
      refine ⟨⟨EatProfile, hp, Or.inl rfl⟩, hi, hv, ?_, hs, ha⟩
      intro n2 hn2
      rw [hn] at hn2
      cases hn2
      exact hb
  refine ⟨hiff, ?_, ?_⟩
  · intro hlen heq
    have := hiff.mp heq
    omega
  · intro hlen
    exact hiff.mpr (by omega)

/-- Witness for C7 at concrete nonces of lengths 10 (accepted) and 9
(rejected). -/
theorem validate_nonce_boundary_witness :
    ({ Profile := some EatProfile,
        VerifierID := some ⟨some "b", some "d"⟩,
        RawEvidence := none, IssuedAt := some 1666091373,
        Nonce := some "0123456789",
        Submods := [("test", ⟨some TrustTierAffirming, none, none⟩)] } :
      AttestationResult).validate = none ∧
    ({ Profile := some EatProfile,
        VerifierID := some ⟨some "b", some "d"⟩,
        RawEvidence := none, IssuedAt := some 1666091373,
        Nonce := some "012345678",
        Submods := [("test", ⟨some TrustTierAffirming, none, none⟩)] } :
      AttestationResult).validate ≠ none := by
  constructor
  · exact (validate_nonce_boundary _ "0123456789" rfl (by decide) (by decide)
      rfl (by decide) (by decide)).2.2 (Or.inl (by decide))
  · exact (validate_nonce_boundary _ "012345678" rfl (by decide) (by decide)
      rfl (by decide) (by decide)).2.1 (Or.inl (by decide))

/-- C5: converting an integer to a TrustTier succeeds only for 0, 2, 32 and
96 (none, affirming, warning, contraindicated); every other integer is
rejected with an error naming the value — and the float64 value 123 (as a
JSON-decoded `"ear.status": 123` arrives) is rejected with an error naming
123. -/
theorem toTrustTier_closed_enum (i : Int) :
    ToTrustTier (GoValue.vInt 0) = (TrustTierNone, none) ∧
    ToTrustTier (GoValue.vInt 2) = (TrustTierAffirming, none) ∧
    ToTrustTier (GoValue.vInt 32) = (TrustTierWarning, none) ∧
    ToTrustTier (GoValue.vInt 96) = (TrustTierContraindicated, none) ∧
    (i ≠ 0 → i ≠ 2 → i ≠ 32 → i ≠ 96 →
      ToTrustTier (GoValue.vInt i) =
        (TrustTierNone, some ("not a valid TrustTier value: " ++ toString i))) ∧
    ToTrustTier (GoValue.vFloat (Rat.divInt 123 1)) =
      (TrustTierNone, some "not a valid TrustTier value: 123.000000 (123)") := by
  refine ⟨by decide, by decide, by decide, by decide, ?_, by decide⟩
  intro h0 h2 h32 h96
  simp [ToTrustTier, getTrustTierFromInt, IntToTrustTier, h0, h2, h32, h96]

/-- Witness for C5: the integer 123 is rejected with an error naming 123. -/
theorem toTrustTier_closed_enum_witness :
    ToTrustTier (GoValue.vInt 123) =
      (TrustTierNone, some "not a valid TrustTier value: 123") := by
  have h := (toTrustTier_closed_enum 123).2.2.2.2.1
    (by decide) (by decide) (by decide) (by decide)
  rw [h]
  decide

/-- C6 counterexample: the claim says a double with non-zero fractional part
is explicitly rejected (2.5 must fail); in fact 2.5 coerces successfully to
2 in all three parsers (matching the repository's own test
`ToTrustTier(2.5)` = affirming). -/
theorem float_fraction_counterexample :
    ToTrustTier (GoValue.vFloat (Rat.divInt 5 2)) = (TrustTierAffirming, none) ∧
    ToTrustClaim (GoValue.vFloat (Rat.divInt 5 2)) = (2, none) ∧
    int64Parser (GoValue.vFloat (Rat.divInt 5 2)) = (2, none) := by
  refine ⟨by decide, by decide, by decide⟩

/-- C6 (amended): the shared numeric coercion accepts an IEEE double by
truncating it toward zero and does NOT reject a non-zero fractional part:
the truncated integer is used (then subjected to the usual range/enum
checks).  `ratTrunc` really is truncation toward zero: below the value by
less than one for non-negative inputs, above it by less than one for
negative inputs. -/
theorem float_coercion_truncates (q : ℚ) :
    ToTrustClaim (GoValue.vFloat q) = getTrustClaimFromInt (ratTrunc q) ∧
    int64Parser (GoValue.vFloat q) = (ratTrunc q, none) ∧
    (∀ t, IntToTrustTier (ratTrunc q) = some t →
      ToTrustTier (GoValue.vFloat q) = (t, none)) ∧
    (0 ≤ q → ((ratTrunc q : ℚ) ≤ q ∧ q < (ratTrunc q : ℚ) + 1)) ∧
    (q < 0 → (q ≤ (ratTrunc q : ℚ) ∧ (ratTrunc q : ℚ) < q + 1)) := by
  refine ⟨rfl, rfl, ?_, ?_, ?_⟩
  · intro t ht
    simp [ToTrustTier, ht]
  · intro h0
    unfold ratTrunc
    rw [if_neg (not_lt.mpr h0), Rat.floor_def', ← Rat.floor_def]
    exact ⟨Int.floor_le q, Int.lt_floor_add_one q⟩
  · intro hneg
    unfold ratTrunc
    rw [if_pos hneg, Rat.floor_def', ← Rat.floor_def, Int.floor_neg, neg_neg]
    exact ⟨Int.le_ceil q, Int.ceil_lt_add_one q⟩

/-- Witness for C6 (amended) at 2.5: the truncation bounds hold and 2.5
converts to tier 2 (affirming) without error. -/
theorem float_coercion_truncates_witness :
    ToTrustTier (GoValue.vFloat (Rat.divInt 5 2)) = (2, none) ∧
    ((ratTrunc (Rat.divInt 5 2) : ℚ) ≤ Rat.divInt 5 2 ∧
      Rat.divInt 5 2 < (ratTrunc (Rat.divInt 5 2) : ℚ) + 1) :=
  ⟨(float_coercion_truncates (Rat.divInt 5 2)).2.2.1 2 (by decide),
    (float_coercion_truncates (Rat.divInt 5 2)).2.2.2.1 (by decide)⟩

/-- C8: string-to-TrustClaim conversion is case- and punctuation-insensitive
via canonicalization: "unsafe_hw" and variants "Unsafe HW", "Unsafe-HW",
"unsafe.hw" all resolve to TrustClaim 32; a string that is neither a
numeric literal nor canonicalizes to a registered tag is rejected with an
error naming the string. -/
theorem trustClaim_string_canonicalization :
    ToTrustClaim (GoValue.vString "unsafe_hw") = (32, none) ∧
    ToTrustClaim (GoValue.vString "Unsafe HW") = (32, none) ∧
    ToTrustClaim (GoValue.vString "Unsafe-HW") = (32, none) ∧
    ToTrustClaim (GoValue.vString "unsafe.hw") = (32, none) ∧
    (∀ s, atoi s = none → lookupTag (canonicalizeTag s) = none →
      ToTrustClaim (GoValue.vString s) =
        (NoClaim, some ("not a valid TrustClaim value: \"" ++ s ++ "\""))) := by
  refine ⟨by decide, by decide, by decide, by decide, ?_⟩
  intro s h1 h2
  simp [ToTrustClaim, getTrustClaimFromString, h1, h2]

/-- Witness for C8: a string that neither parses as a number nor matches any
tag is rejected with an error naming it. -/
theorem trustClaim_string_canonicalization_witness :
    ToTrustClaim (GoValue.vString "Bogus Claim") =
      (NoClaim, some "not a valid TrustClaim value: \"Bogus Claim\"") := by
  have h := trustClaim_string_canonicalization.2.2.2.2 "Bogus Claim"
    (by decide) (by decide)
  rw [h]
  decide

/-- C9: inputs of a dynamic type handled by no case of ToTrustClaim's switch
(bool, nil, a map — and even TrustTier values) are silently accepted as a
pointer to NoClaim with a nil error, unlike ToTrustTier whose default case
returns a conversion error. -/
theorem toTrustClaim_unhandled_silent (b : Bool) :
    ToTrustClaim (GoValue.vBool b) = (NoClaim, none) ∧
    ToTrustClaim GoValue.vNull = (NoClaim, none) ∧
    ToTrustClaim GoValue.vMap = (NoClaim, none) ∧
    (∃ msg, ToTrustTier (GoValue.vBool b) = (TrustTierNone, some msg)) ∧
    (∃ msg, ToTrustTier GoValue.vNull = (TrustTierNone, some msg)) :=
  ⟨rfl, rfl, rfl, ⟨_, rfl⟩, ⟨_, rfl⟩⟩

end Ear
